import Mathlib

/-!
Shallow embedding of `src/main.rs` of the Nginx Cloudflare Access JWT
validator: the JWKS key cache (`fetch_jwks`, `fetch_and_cache_keys`), the
token validator (`validate_jwt`), and the HTTP gateway (`auth_handler`,
`extract_jwt`, `create_response`, `health_handler`, `refresh_keys_handler`,
`AppConfig.from_env`).

Modelling conventions:
- Network effects are explicit inputs: an `HttpOutcome` value stands for what
  the one HTTP request performed by `fetch_jwks` returned.
- RSA cryptography (the `jsonwebtoken` / `DecodingKey` library code, which is
  not part of this repository) is modelled symbolically: a signature is a
  record binding the algorithm, the signing key material (modulus/exponent)
  and the signed payload; verification is equality of that record with the
  expected one.  `DecodingKey::from_rsa_components` is abstracted by a
  well-formedness predicate `wf` on the modulus/exponent strings, carried as
  an explicit parameter.
- The mutable `RwLock<HashMap<String, DecodingKey>>` becomes explicit state
  passing of an association list with replace-on-insert semantics; every
  stateful function returns its new cache.
- `validate_jwt` additionally reports how many JWKS refreshes it performed,
  so that "exactly one refresh" claims are statable.
-/

/-- Signature algorithms.  Only the constructors needed to distinguish RS256
from any other declared algorithm. -/
inductive Alg where
  | RS256
  | RS384
  | HS256
  | ES256
deriving DecidableEq

/-- The key material of a decoding key built from RSA components, as in
`DecodingKey::from_rsa_components(&jwk.n, &jwk.e)`. -/
structure RsaKey where
  n : String
  e : String
deriving DecidableEq

/-- `DecodingKey::from_rsa_components`: library code, abstracted by the
well-formedness predicate `wf` on the (n, e) strings. -/
def from_rsa_components (wf : String → String → Bool) (n e : String) : Option RsaKey :=
  if wf n e then some ⟨n, e⟩ else none

/-- The audience claim as it appears in the token JSON: a single string or a
list of strings (the two shapes `deserialize_audience` accepts). -/
inductive AudClaim where
  | str (s : String)
  | list (xs : List String)
deriving DecidableEq

/-- The raw claim payload of a token, before the custom audience
deserialization: `exp`, `iss`, `aud` (string-or-list), optional `email`. -/
structure Payload where
  exp : Nat
  iss : String
  aud : AudClaim
  email : Option String
deriving DecidableEq

/-- The Rust `Claims` struct after deserialization: `aud` has been resolved
to a single string by `deserialize_audience`. -/
structure Claims where
  exp : Nat
  iss : String
  aud : String
  email : Option String
deriving DecidableEq

/-- The custom serde deserializer for the audience field (`main.rs` lines
24-61): a JSON string is taken as-is (`visit_str`), a JSON array yields its
first element (`visit_seq`), and an empty array is an error. -/
def deserialize_audience : AudClaim → Except String String
  | .str s => .ok s
  | .list [] => .error "audience array is empty"
  | .list (x :: _) => .ok x

/-- Deserializing the whole `Claims` struct from a payload: the only fallible
field is `aud`, through `deserialize_audience`. -/
def deserializeClaims (p : Payload) : Except String Claims :=
  match deserialize_audience p.aud with
  | .error e => .error e
  | .ok s => .ok ⟨p.exp, p.iss, s, p.email⟩

/-- A JWT header as produced by `decode_header`: the declared algorithm and
the optional key identifier. -/
structure Header where
  alg : Alg
  kid : Option String
deriving DecidableEq

/-- Symbolic RSA signature: it binds the algorithm it was produced with, the
key material of the signing key, and the signed payload.  Verification under
a decoding key succeeds exactly when all three match. -/
structure Sig where
  alg : Alg
  n : String
  e : String
  payload : Payload
deriving DecidableEq

/-- A structurally well-formed JWT: header, claim payload, signature. -/
structure Token where
  header : Header
  payload : Payload
  sig : Sig
deriving DecidableEq

/-- One record of the JWKS document (the Rust `Jwk` struct). -/
structure Jwk where
  kid : String
  n : String
  e : String
  kty : String
  alg : String
  use_ : String
deriving DecidableEq

/-- The key cache: `HashMap<String, DecodingKey>` as an association list with
replace-on-insert semantics and first-match lookup. -/
abbrev Cache := List (String × RsaKey)

/-- `HashMap::get` on the cache. -/
def cacheLookup (c : Cache) (k : String) : Option RsaKey :=
  match c.find? (fun p => p.1 == k) with
  | some p => some p.2
  | none => none

/-- `HashMap::insert`: the new binding shadows (replaces) any previous
binding of the same key. -/
def insertKey (c : Cache) (k : String) (v : RsaKey) : Cache :=
  (k, v) :: c.filter (fun p => p.1 != k)

/-- The body of an HTTP response to the JWKS fetch, as far as
`resp.json::<Jwks>()` is concerned: either it fails to parse or it yields
the list of `Jwk` records. -/
inductive Body where
  | malformed
  | parsed (ks : List Jwk)

/-- The outcome of the one HTTP request `fetch_jwks` performs: a network
error (connection failure, timeout), or a response with a status code and a
body. -/
inductive HttpOutcome where
  | netErr
  | resp (status : Nat) (body : Body)

/-- `StatusCode::is_success`: 2xx. -/
def is_success (s : Nat) : Bool := 200 ≤ s && s < 300

/-- `fetch_jwks` (`main.rs` lines 407-427): error on network failure, error
on a non-success status, error on an unparsable body, otherwise the parsed
key list. -/
def fetch_jwks : HttpOutcome → Except Unit (List Jwk)
  | .netErr => .error ()
  | .resp status body =>
    if is_success status = false then .error ()
    else
      match body with
      | .malformed => .error ()
      | .parsed ks => .ok ks

/-- The per-candidate step of the caching loop (`main.rs` lines 136-160):
skip unless `kty == "RSA"`, `alg == "RS256"`, `use == "sig"`, and the RSA
components are well-formed; otherwise insert under the candidate's kid. -/
def processJwk (wf : String → String → Bool) (c : Cache) (j : Jwk) : Cache :=
  if j.kty ≠ "RSA" then c
  else if j.alg ≠ "RS256" then c
  else if j.use_ ≠ "sig" then c
  else
    match from_rsa_components wf j.n j.e with
    | some key => insertKey c j.kid key
    | none => c

/-- The four-constraint filter an individual JWKS candidate must pass. -/
def passes (wf : String → String → Bool) (j : Jwk) : Bool :=
  decide (j.kty = "RSA") && decide (j.alg = "RS256") && decide (j.use_ = "sig") && wf j.n j.e

/-- The cache built from a fetched key list alone: clear, then process each
candidate in order. -/
def buildCache (wf : String → String → Bool) (ks : List Jwk) : Cache :=
  ks.foldl (processJwk wf) []

/-- `AppState::fetch_and_cache_keys` (`main.rs` lines 126-164): on fetch
failure return the error with the cache untouched; on success clear the
cache and insert every candidate passing the filter.  Returns the result
together with the new cache state. -/
def fetch_and_cache_keys (wf : String → String → Bool) (cache : Cache)
    (o : HttpOutcome) : Except Unit Unit × Cache :=
  match fetch_jwks o with
  | .error _ => (.error (), cache)
  | .ok ks => (.ok (), buildCache wf ks)

/-- Whether the token's audience claim, viewed as a set, meets the expected
audience set — the check `jsonwebtoken` performs for
`validation.set_audience(&[aud])`. -/
def audOverlap (a : AudClaim) (auds : List String) : Bool :=
  match a with
  | .str s => auds.contains s
  | .list xs => xs.any (fun x => auds.contains x)

/-- `jsonwebtoken::decode::<Claims>` under `Validation::new(Algorithm::RS256)`
with audience `[aud]` and issuer `{cfIssuer}` (library code, modelled by its
documented behaviour): the declared algorithm must be RS256, the signature
must verify under the resolved key with that algorithm over this token's
payload, the token must be unexpired, the issuer claim must be in the trusted
set, the audience claim must meet the expected set, and the claims must
deserialize (which resolves string-or-list audience to its first element). -/
def decode (t : Token) (key : RsaKey) (cfIssuer aud : String) (now : Nat) :
    Except Unit Claims :=
  if t.header.alg ≠ Alg.RS256 then .error ()
  else if t.sig ≠ ⟨t.header.alg, key.n, key.e, t.payload⟩ then .error ()
  else if t.payload.exp < now then .error ()
  else if t.payload.iss ≠ cfIssuer then .error ()
  else if audOverlap t.payload.aud [aud] = false then .error ()
  else
    match deserializeClaims t.payload with
    | .error _ => .error ()
    | .ok claims => .ok claims

/-- The tail of `validate_jwt` once a decoding key is resolved (`main.rs`
lines 369-404): library decode, then the manual issuer equality check, then
the manual audience equality check. -/
def validate_with_key (t : Token) (key : RsaKey) (cfIssuer aud : String)
    (now : Nat) : Except Unit Claims :=
  match decode t key cfIssuer aud now with
  | .error e => .error e
  | .ok claims =>
    if claims.iss ≠ cfIssuer then .error ()
    else if claims.aud ≠ aud then .error ()
    else .ok claims

/-- The full observable outcome of one `validate_jwt` call: the result, the
cache state afterwards, and how many JWKS refreshes the call performed. -/
structure VOut where
  result : Except Unit Claims
  cache : Cache
  refreshes : Nat

/-- `validate_jwt` (`main.rs` lines 332-404): extract the kid from the
header; look it up in the cache; on a miss perform exactly one
`fetch_and_cache_keys` (whose network outcome is the explicit input `o`) and
retry the lookup once; then decode and check claims with the resolved key. -/
def validate_jwt (t : Token) (cache : Cache) (o : HttpOutcome)
    (wf : String → String → Bool) (cfIssuer aud : String) (now : Nat) : VOut :=
  match t.header.kid with
  | none => ⟨.error (), cache, 0⟩
  | some kid =>
    match cacheLookup cache kid with
    | some key => ⟨validate_with_key t key cfIssuer aud now, cache, 0⟩
    | none =>
      match fetch_and_cache_keys wf cache o with
      | (.error _, c') => ⟨.error (), c', 1⟩
      | (.ok _, c') =>
        match cacheLookup c' kid with
        | none => ⟨.error (), c', 1⟩
        | some key => ⟨validate_with_key t key cfIssuer aud now, c', 1⟩

/-- The configuration derived from the environment (`AppConfig`). -/
structure AppConfig where
  cf_issuer : String
  cf_jwks_url : String
deriving DecidableEq

/-- `AppConfig::from_env` (`main.rs` lines 86-97), with the environment's
`CF_TEAM_NAME` variable passed explicitly: absence is an error (which `main`
turns into a startup panic via `.expect`), presence yields the issuer and
JWKS URL by fixed string templates. -/
def AppConfig.from_env (team : Option String) : Except String AppConfig :=
  match team with
  | none => .error "CF_TEAM_NAME environment variable is required"
  | some t =>
    .ok ⟨"https://" ++ t ++ ".cloudflareaccess.com",
         "https://" ++ t ++ ".cloudflareaccess.com/cdn-cgi/access/certs"⟩

/-- An inbound HTTP request as the handlers see it: the header list (first
match wins, as in `HeaderMap::get`) and the already-extracted optional `aud`
query parameter (`Query<AuthQuery>`). -/
structure HttpRequest where
  headers : List (String × String)
  queryAud : Option String

/-- `HeaderMap::get`: first header with the given (lowercase) name. -/
def headerGet (headers : List (String × String)) (name : String) : Option String :=
  match headers.find? (fun p => p.1 == name) with
  | some p => some p.2
  | none => none

/-- The cookie scan inside `extract_jwt`: split on `;`, trim each part, and
return the remainder of the first part starting with `CF_Authorization=`. -/
def findCfCookie : List String → Option String
  | [] => none
  | p :: rest =>
    let q := p.trim
    if q.startsWith "CF_Authorization=" then
      some (q.drop "CF_Authorization=".length)
    else findCfCookie rest

/-- `extract_jwt` (`main.rs` lines 311-330): the `cf-authorization` header
first, falling back to the `CF_Authorization` cookie. -/
def extract_jwt (req : HttpRequest) : Option String :=
  match headerGet req.headers "cf-authorization" with
  | some s => some s
  | none =>
    match headerGet req.headers "cookie" with
    | none => none
    | some cookieStr => findCfCookie (cookieStr.splitOn ";")

/-- An HTTP response of this service: a status code and a header list. -/
abbrev Response := Nat × List (String × String)

/-- `create_response` (`main.rs` lines 293-309): any status, plus the fixed
connection-reuse, keep-alive and cache-disabling headers. -/
def create_response (status : Nat) : Response :=
  (status,
   [("connection", "keep-alive"),
    ("keep-alive", "timeout=120, max=10000"),
    ("cache-control", "no-cache, no-store, must-revalidate"),
    ("pragma", "no-cache"),
    ("expires", "0")])

/-- `auth_handler` (`main.rs` lines 228-269), parameterized by the validator
it would call on the extracted token and audience: audience from the
`x-expected-audience` header falling back to the `aud` query parameter,
missing → 401; token via `extract_jwt`, missing → 401; otherwise 204 or 401
according to the validator's verdict. -/
def auth_handler (validate : String → String → Bool) (req : HttpRequest) :
    Response :=
  let audOpt :=
    match headerGet req.headers "x-expected-audience" with
    | some s => some s
    | none => req.queryAud
  match audOpt with
  | none => create_response 401
  | some aud =>
    match extract_jwt req with
    | none => create_response 401
    | some jwt =>
      if validate jwt aud then create_response 204 else create_response 401

/-- `health_handler`: always 200. -/
def health_handler : Response := create_response 200

/-- `refresh_keys_handler` (`main.rs` lines 277-290): run a refresh, 200 on
success and 500 on failure, returning the new cache state. -/
def refresh_keys_handler (wf : String → String → Bool) (cache : Cache)
    (o : HttpOutcome) : Response × Cache :=
  match fetch_and_cache_keys wf cache o with
  | (.ok _, c') => (create_response 200, c')
  | (.error _, c') => (create_response 500, c')

/-! ## Helper lemmas about the cache -/

lemma find_filter_ne (c : Cache) (k k' : String) (h : k' ≠ k) :
    (c.filter (fun p => p.1 != k)).find? (fun p => p.1 == k') =
      c.find? (fun p => p.1 == k') := by
  induction c with
  | nil => rfl
  | cons p c ih =>
    by_cases hp : p.1 = k
    · have h1 : (p.1 != k) = false := by simp [hp]
      have h2 : (p.1 == k') = false := by
        simp [hp]
        exact fun h' => h h'.symm
      simp only [List.filter_cons, h1, List.find?_cons, h2, Bool.false_eq_true,
        if_false]
      exact ih
    · have h1 : (p.1 != k) = true := by simp [hp]
      simp only [List.filter_cons, h1, if_true, List.find?_cons]
      by_cases hk' : (p.1 == k') = true
      · simp only [hk']
      · have hk2 : (p.1 == k') = false := by
          cases hb : (p.1 == k') with
          | true => exact absurd hb hk'
          | false => rfl
        simp only [hk2]
        exact ih

lemma cacheLookup_insertKey (c : Cache) (k k' : String) (v : RsaKey) :
    cacheLookup (insertKey c k v) k' = if k' = k then some v else cacheLookup c k' := by
  unfold cacheLookup insertKey
  by_cases h : k' = k
  · subst h
    simp [List.find?_cons]
  · have hne : (k == k') = false := by
      simp
      exact fun h' => h h'.symm
    simp [List.find?_cons, hne, h, find_filter_ne c k k' h]

lemma processJwk_eq (wf : String → String → Bool) (c : Cache) (j : Jwk) :
    processJwk wf c j =
      if passes wf j = true then insertKey c j.kid ⟨j.n, j.e⟩ else c := by
  unfold processJwk passes from_rsa_components
  by_cases h1 : j.kty = "RSA" <;> by_cases h2 : j.alg = "RS256" <;>
    by_cases h3 : j.use_ = "sig" <;> by_cases h4 : wf j.n j.e = true <;>
    simp [h1, h2, h3, h4]

lemma cacheLookup_foldl_isSome (wf : String → String → Bool) (ks : List Jwk)
    (acc : Cache) (k : String) :
    (cacheLookup (ks.foldl (processJwk wf) acc) k).isSome = true ↔
      ((cacheLookup acc k).isSome = true ∨
        ∃ j, j ∈ ks ∧ j.kid = k ∧ passes wf j = true) := by
  induction ks generalizing acc with
  | nil => simp
  | cons j ks ih =>
    rw [List.foldl_cons, ih, processJwk_eq]
    by_cases hp : passes wf j = true
    · rw [if_pos hp]
      by_cases hk : k = j.kid
      · subst hk
        simp [cacheLookup_insertKey, hp]
      · rw [cacheLookup_insertKey, if_neg hk]
        constructor
        · rintro (h | h)
          · exact Or.inl h
          · exact Or.inr (by
              obtain ⟨j', hj', hkid, hpj⟩ := h
              exact ⟨j', List.mem_cons_of_mem _ hj', hkid, hpj⟩)
        · rintro (h | ⟨j', hj', hkid, hpj⟩)
          · exact Or.inl h
          · rcases List.mem_cons.mp hj' with rfl | hmem
            · exact absurd hkid.symm hk
            · exact Or.inr ⟨j', hmem, hkid, hpj⟩
    · rw [if_neg hp]
      constructor
      · rintro (h | ⟨j', hj', hkid, hpj⟩)
        · exact Or.inl h
        · exact Or.inr ⟨j', List.mem_cons_of_mem _ hj', hkid, hpj⟩
      · rintro (h | ⟨j', hj', hkid, hpj⟩)
        · exact Or.inl h
        · rcases List.mem_cons.mp hj' with rfl | hmem
          · exact absurd hpj hp
          · exact Or.inr ⟨j', hmem, hkid, hpj⟩

lemma cacheLookup_buildCache_isSome (wf : String → String → Bool)
    (ks : List Jwk) (k : String) :
    (cacheLookup (buildCache wf ks) k).isSome = true ↔
      ∃ j, j ∈ ks ∧ j.kid = k ∧ passes wf j = true := by
  rw [buildCache, cacheLookup_foldl_isSome]
  simp [cacheLookup]

/-! ## Claims about the key cache -/

/-- C3: if the JWKS fetch fails (network error, non-success HTTP status, or
malformed body), `fetch_and_cache_keys` returns the error and the cache
mapping afterwards is exactly the mapping before — no key added or removed. -/
theorem refresh_failure_preserves_cache (wf : String → String → Bool)
    (cache : Cache) (o : HttpOutcome) (h : fetch_jwks o = .error ()) :
    (fetch_and_cache_keys wf cache o).1 = .error ()
    ∧ (fetch_and_cache_keys wf cache o).2 = cache
    ∧ fetch_jwks .netErr = .error ()
    ∧ (∀ s b, is_success s = false → fetch_jwks (.resp s b) = .error ())
    ∧ (∀ s, fetch_jwks (.resp s .malformed) = .error ()) := by
  refine ⟨?_, ?_, rfl, ?_, ?_⟩
  · unfold fetch_and_cache_keys
    rw [h]
  · unfold fetch_and_cache_keys
    rw [h]
  · intro s b hs
    simp [fetch_jwks, hs]
  · intro s
    by_cases hs : is_success s = false <;> simp [fetch_jwks, hs]

/-- Witness for C3 at a concrete failing fetch and a concrete nonempty cache. -/
theorem refresh_failure_preserves_cache_witness :
    (fetch_and_cache_keys (fun _ _ => true) [("kid1", ⟨"n1", "e1"⟩)] .netErr).1 = .error ()
    ∧ (fetch_and_cache_keys (fun _ _ => true) [("kid1", ⟨"n1", "e1"⟩)] .netErr).2 =
        [("kid1", ⟨"n1", "e1"⟩)]
    ∧ fetch_jwks .netErr = .error ()
    ∧ (∀ s b, is_success s = false → fetch_jwks (.resp s b) = .error ())
    ∧ (∀ s, fetch_jwks (.resp s .malformed) = .error ()) :=
  refresh_failure_preserves_cache (fun _ _ => true) [("kid1", ⟨"n1", "e1"⟩)] .netErr rfl

/-- C2: after a successful fetch of key list `ks`, a kid is present in the
cache iff some candidate in `ks` bears that kid and passes all four
constraints (RSA family, RS256, signature use, well-formed material); and a
candidate failing the filter can be deleted from the fetched list without
changing the resulting cache at all. -/
theorem jwks_candidate_filter (wf : String → String → Bool) (cache : Cache)
    (o : HttpOutcome) (ks : List Jwk) (h : fetch_jwks o = .ok ks) :
    (∀ k : String,
      (∃ v, cacheLookup ((fetch_and_cache_keys wf cache o).2) k = some v) ↔
        ∃ j, j ∈ ks ∧ j.kid = k ∧ passes wf j = true)
    ∧ (∀ (pre post : List Jwk) (j : Jwk), passes wf j = false →
        ks = pre ++ j :: post →
        (fetch_and_cache_keys wf cache o).2 = buildCache wf (pre ++ post)) := by
  have hsnd : (fetch_and_cache_keys wf cache o).2 = buildCache wf ks := by
    unfold fetch_and_cache_keys
    rw [h]
  constructor
  · intro k
    rw [hsnd, ← Option.isSome_iff_exists, cacheLookup_buildCache_isSome]
  · intro pre post j hj hks
    rw [hsnd, hks]
    unfold buildCache
    rw [List.foldl_append, List.foldl_append, List.foldl_cons, processJwk_eq,
      if_neg]
    simp [hj]

/-- Witness for C2: a passing candidate is retained from a concrete fetched
document that also contains a failing (non-RSA) candidate. -/
theorem jwks_candidate_filter_witness :
    ∃ v, cacheLookup ((fetch_and_cache_keys (fun _ _ => true) []
        (.resp 200 (.parsed [⟨"good", "n", "e", "RSA", "RS256", "sig"⟩,
                             ⟨"bad", "n", "e", "EC", "RS256", "sig"⟩]))).2)
      "good" = some v :=
  ((jwks_candidate_filter (fun _ _ => true) []
      (.resp 200 (.parsed [⟨"good", "n", "e", "RSA", "RS256", "sig"⟩,
                           ⟨"bad", "n", "e", "EC", "RS256", "sig"⟩]))
      [⟨"good", "n", "e", "RSA", "RS256", "sig"⟩,
       ⟨"bad", "n", "e", "EC", "RS256", "sig"⟩] rfl).1 "good").mpr
    ⟨⟨"good", "n", "e", "RSA", "RS256", "sig"⟩, by simp, rfl, rfl⟩

/-- C6: after a successful refresh that fetched `ks`, the mapping is exactly
the one built from `ks` alone (clear-then-insert): it does not depend on the
previous cache contents in any way, and every kid present afterwards comes
from a candidate of `ks` passing the filter. -/
theorem refresh_replaces_mapping (wf : String → String → Bool)
    (cache cache' : Cache) (o : HttpOutcome) (ks : List Jwk)
    (h : fetch_jwks o = .ok ks) :
    (fetch_and_cache_keys wf cache o).2 = buildCache wf ks
    ∧ (fetch_and_cache_keys wf cache o).2 = (fetch_and_cache_keys wf cache' o).2
    ∧ (∀ k v, cacheLookup ((fetch_and_cache_keys wf cache o).2) k = some v →
        ∃ j, j ∈ ks ∧ j.kid = k ∧ passes wf j = true) := by
  have hsnd : ∀ c : Cache, (fetch_and_cache_keys wf c o).2 = buildCache wf ks := by
    intro c
    unfold fetch_and_cache_keys
    rw [h]
  refine ⟨hsnd cache, (hsnd cache).trans (hsnd cache').symm, ?_⟩
  intro k v hk
  rw [← cacheLookup_buildCache_isSome wf ks k, ← hsnd cache]
  rw [hk]
  rfl

/-- Witness for C6: a concrete refresh wipes a stale entry and leaves exactly
the cache built from the fetched document. -/
theorem refresh_replaces_mapping_witness :
    (fetch_and_cache_keys (fun _ _ => true) [("old", ⟨"n0", "e0"⟩)]
        (.resp 200 (.parsed [⟨"good", "n", "e", "RSA", "RS256", "sig"⟩]))).2 =
      buildCache (fun _ _ => true) [⟨"good", "n", "e", "RSA", "RS256", "sig"⟩] :=
  (refresh_replaces_mapping (fun _ _ => true) [("old", ⟨"n0", "e0"⟩)] []
    (.resp 200 (.parsed [⟨"good", "n", "e", "RSA", "RS256", "sig"⟩]))
    [⟨"good", "n", "e", "RSA", "RS256", "sig"⟩] rfl).1

/-! ## Helper lemmas about the validator -/

lemma except_error_of_not_ok (x : Except Unit Claims)
    (h : ∀ c, x ≠ .ok c) : x = .error () := by
  cases x with
  | error e => cases e; rfl
  | ok c => exact absurd rfl (h c)

lemma audOverlap_of_deser (a : AudClaim) (s : String)
    (h : deserialize_audience a = .ok s) : audOverlap a [s] = true := by
  cases a with
  | str x =>
    simp [deserialize_audience] at h
    simp [audOverlap, h]
  | list xs =>
    cases xs with
    | nil => simp [deserialize_audience] at h
    | cons x rest =>
      simp [deserialize_audience] at h
      simp [audOverlap, h]

lemma deserializeClaims_ok_iff (p : Payload) (c : Claims) :
    deserializeClaims p = .ok c ↔
      (deserialize_audience p.aud = .ok c.aud ∧ c.exp = p.exp ∧ c.iss = p.iss
        ∧ c.email = p.email) := by
  obtain ⟨ce, ci, ca, cm⟩ := c
  unfold deserializeClaims
  rcases h : deserialize_audience p.aud with e | s <;> simp [h]
  aesop

lemma decode_ok_iff (t : Token) (key : RsaKey) (cfIssuer aud : String)
    (now : Nat) (claims : Claims) :
    decode t key cfIssuer aud now = .ok claims ↔
      (t.header.alg = Alg.RS256
        ∧ t.sig = ⟨t.header.alg, key.n, key.e, t.payload⟩
        ∧ now ≤ t.payload.exp
        ∧ t.payload.iss = cfIssuer
        ∧ audOverlap t.payload.aud [aud] = true
        ∧ deserializeClaims t.payload = .ok claims) := by
  unfold decode
  split_ifs with h1 h2 h3 h4 h5
  · simp [h1]
  · simp at h1
    rw [h1] at h2
    simp [h1, h2]
  · have hne : ¬ now ≤ t.payload.exp := not_le.mpr h3
    simp [hne]
  · simp [h4]
  · simp [h5]
  · simp at h1 h2 h3 h4 h5
    rcases hd : deserializeClaims t.payload with e | c <;>
      simp [hd, h1, h2, h3, h4, h5]

lemma validate_with_key_ok_iff (t : Token) (key : RsaKey)
    (cfIssuer aud : String) (now : Nat) (claims : Claims) :
    validate_with_key t key cfIssuer aud now = .ok claims ↔
      (decode t key cfIssuer aud now = .ok claims
        ∧ claims.iss = cfIssuer ∧ claims.aud = aud) := by
  unfold validate_with_key
  rcases h : decode t key cfIssuer aud now with e | c
  · simp [h]
  · dsimp only
    split_ifs with hi ha
    · constructor
      · intro hc
        simp at hc
      · rintro ⟨hc, hi', ha'⟩
        rw [Except.ok.injEq] at hc
        subst hc
        exact absurd hi' hi
    · constructor
      · intro hc
        simp at hc
      · rintro ⟨hc, hi', ha'⟩
        rw [Except.ok.injEq] at hc
        subst hc
        exact absurd ha' ha
    · rw [not_not] at hi ha
      constructor
      · intro hc
        rw [Except.ok.injEq] at hc
        subst hc
        exact ⟨rfl, hi, ha⟩
      · rintro ⟨hc, hi', ha'⟩
        exact hc

lemma validate_jwt_hit (t : Token) (cache : Cache) (o : HttpOutcome)
    (wf : String → String → Bool) (cfIssuer aud : String) (now : Nat)
    (kid : String) (key : RsaKey)
    (hkid : t.header.kid = some kid) (hkey : cacheLookup cache kid = some key) :
    validate_jwt t cache o wf cfIssuer aud now =
      ⟨validate_with_key t key cfIssuer aud now, cache, 0⟩ := by
  unfold validate_jwt
  rw [hkid]
  simp only [hkey]

lemma validate_with_key_error (t : Token) (key : RsaKey) (cfIssuer aud : String)
    (now : Nat)
    (h : ∀ claims : Claims, ¬ (decode t key cfIssuer aud now = .ok claims
          ∧ claims.iss = cfIssuer ∧ claims.aud = aud)) :
    validate_with_key t key cfIssuer aud now = .error () := by
  apply except_error_of_not_ok
  intro c hc
  exact h c ((validate_with_key_ok_iff t key cfIssuer aud now c).mp hc)

lemma validate_with_key_accept (p : Payload) (key : RsaKey) (cfIssuer aud : String)
    (now : Nat) (kid : Option String)
    (hexp : now ≤ p.exp) (hiss : p.iss = cfIssuer)
    (haud : deserialize_audience p.aud = .ok aud) :
    validate_with_key ⟨⟨Alg.RS256, kid⟩, p, ⟨Alg.RS256, key.n, key.e, p⟩⟩
        key cfIssuer aud now = .ok ⟨p.exp, p.iss, aud, p.email⟩ := by
  have hdec : decode ⟨⟨Alg.RS256, kid⟩, p, ⟨Alg.RS256, key.n, key.e, p⟩⟩
      key cfIssuer aud now = .ok ⟨p.exp, p.iss, aud, p.email⟩ := by
    rw [decode_ok_iff]
    refine ⟨rfl, rfl, hexp, hiss, audOverlap_of_deser _ _ haud, ?_⟩
    rw [deserializeClaims_ok_iff]
    exact ⟨haud, rfl, rfl, rfl⟩
  unfold validate_with_key
  rw [hdec]
  simp [hiss]

lemma validate_jwt_miss (t : Token) (cache : Cache) (o : HttpOutcome)
    (wf : String → String → Bool) (cfIssuer aud : String) (now : Nat)
    (kid : String)
    (hkid : t.header.kid = some kid) (hmiss : cacheLookup cache kid = none) :
    validate_jwt t cache o wf cfIssuer aud now =
      match fetch_and_cache_keys wf cache o with
      | (.error _, c') => ⟨.error (), c', 1⟩
      | (.ok _, c') =>
        match cacheLookup c' kid with
        | none => ⟨.error (), c', 1⟩
        | some key => ⟨validate_with_key t key cfIssuer aud now, c', 1⟩ := by
  unfold validate_jwt
  rw [hkid]
  simp only [hmiss]

/-! ## Claims about the validator -/

/-- C1: for a token whose kid resolves in the cache, a token genuinely
signed under RS256 with the resolved key, unexpired, with the trusted issuer
and an audience resolving to the expected one, is accepted; and flipping any
single one of signature, expiration, issuer, audience, or declared algorithm
to an invalid value (holding the rest fixed) makes `validate_jwt` reject. -/
theorem validate_accept_and_single_flips
    (wf : String → String → Bool) (cache : Cache) (o : HttpOutcome)
    (cfIssuer aud : String) (now : Nat) (kid : String) (key : RsaKey)
    (p : Payload)
    (hkey : cacheLookup cache kid = some key)
    (hexp : now ≤ p.exp) (hiss : p.iss = cfIssuer)
    (haud : deserialize_audience p.aud = .ok aud) :
    (validate_jwt ⟨⟨Alg.RS256, some kid⟩, p, ⟨Alg.RS256, key.n, key.e, p⟩⟩
        cache o wf cfIssuer aud now).result = .ok ⟨p.exp, p.iss, aud, p.email⟩
    ∧ (∀ sig' : Sig, sig' ≠ ⟨Alg.RS256, key.n, key.e, p⟩ →
        (validate_jwt ⟨⟨Alg.RS256, some kid⟩, p, sig'⟩
          cache o wf cfIssuer aud now).result = .error ())
    ∧ (∀ exp' : Nat, exp' < now →
        (validate_jwt ⟨⟨Alg.RS256, some kid⟩, { p with exp := exp' },
            ⟨Alg.RS256, key.n, key.e, { p with exp := exp' }⟩⟩
          cache o wf cfIssuer aud now).result = .error ())
    ∧ (∀ iss' : String, iss' ≠ cfIssuer →
        (validate_jwt ⟨⟨Alg.RS256, some kid⟩, { p with iss := iss' },
            ⟨Alg.RS256, key.n, key.e, { p with iss := iss' }⟩⟩
          cache o wf cfIssuer aud now).result = .error ())
    ∧ (∀ aud' : AudClaim, deserialize_audience aud' ≠ .ok aud →
        (validate_jwt ⟨⟨Alg.RS256, some kid⟩, { p with aud := aud' },
            ⟨Alg.RS256, key.n, key.e, { p with aud := aud' }⟩⟩
          cache o wf cfIssuer aud now).result = .error ())
    ∧ (∀ a : Alg, a ≠ Alg.RS256 →
        (validate_jwt ⟨⟨a, some kid⟩, p, ⟨a, key.n, key.e, p⟩⟩
          cache o wf cfIssuer aud now).result = .error ()) := by
  refine ⟨?_, ?_, ?_, ?_, ?_, ?_⟩
  · rw [validate_jwt_hit _ cache o wf cfIssuer aud now kid key rfl hkey]
    exact validate_with_key_accept p key cfIssuer aud now (some kid) hexp hiss haud
  · intro sig' hs
    rw [validate_jwt_hit _ cache o wf cfIssuer aud now kid key rfl hkey]
    apply validate_with_key_error
    rintro c ⟨hdec, hi, ha⟩
    rw [decode_ok_iff] at hdec
    exact hs hdec.2.1
  · intro exp' hlt
    rw [validate_jwt_hit _ cache o wf cfIssuer aud now kid key rfl hkey]
    apply validate_with_key_error
    rintro c ⟨hdec, hi, ha⟩
    rw [decode_ok_iff] at hdec
    exact absurd hdec.2.2.1 (not_le.mpr hlt)
  · intro iss' hne
    rw [validate_jwt_hit _ cache o wf cfIssuer aud now kid key rfl hkey]
    apply validate_with_key_error
    rintro c ⟨hdec, hi, ha⟩
    rw [decode_ok_iff] at hdec
    exact hne hdec.2.2.2.1
  · intro aud' hne
    rw [validate_jwt_hit _ cache o wf cfIssuer aud now kid key rfl hkey]
    apply validate_with_key_error
    rintro c ⟨hdec, hi, ha⟩
    rw [decode_ok_iff] at hdec
    have hd := hdec.2.2.2.2.2
    rw [deserializeClaims_ok_iff] at hd
    have h1 := hd.1
    rw [ha] at h1
    exact hne h1
  · intro a hA
    rw [validate_jwt_hit _ cache o wf cfIssuer aud now kid key rfl hkey]
    apply validate_with_key_error
    rintro c ⟨hdec, hi, ha⟩
    rw [decode_ok_iff] at hdec
    exact hA hdec.1

/-- Witness for C1 (accept direction) at fully concrete inputs. -/
theorem validate_accept_and_single_flips_witness :
    (validate_jwt ⟨⟨Alg.RS256, some "kid1"⟩,
        ⟨200, "https://acme.cloudflareaccess.com", .str "svc", none⟩,
        ⟨Alg.RS256, "n1", "e1",
          ⟨200, "https://acme.cloudflareaccess.com", .str "svc", none⟩⟩⟩
      [("kid1", ⟨"n1", "e1"⟩)] .netErr (fun _ _ => true)
      "https://acme.cloudflareaccess.com" "svc" 100).result
      = .ok ⟨200, "https://acme.cloudflareaccess.com", "svc", none⟩ :=
  (validate_accept_and_single_flips (fun _ _ => true) [("kid1", ⟨"n1", "e1"⟩)]
    .netErr "https://acme.cloudflareaccess.com" "svc" 100 "kid1" ⟨"n1", "e1"⟩
    ⟨200, "https://acme.cloudflareaccess.com", .str "svc", none⟩
    rfl (by decide) rfl rfl).1

/-- C4: on a cache miss for the token's kid, `validate_jwt` performs exactly
one refresh; if the fetch fails it rejects with the cache untouched; if the
kid is still absent after the one refresh it rejects; and if the kid appears
after the refresh, validation proceeds with that key and still only one
refresh was performed. -/
theorem unknown_kid_single_refresh
    (wf : String → String → Bool) (cache : Cache) (o : HttpOutcome)
    (cfIssuer aud : String) (now : Nat) (t : Token) (kid : String)
    (hkid : t.header.kid = some kid) (hmiss : cacheLookup cache kid = none) :
    (validate_jwt t cache o wf cfIssuer aud now).refreshes = 1
    ∧ (fetch_jwks o = .error () →
        (validate_jwt t cache o wf cfIssuer aud now).result = .error ()
        ∧ (validate_jwt t cache o wf cfIssuer aud now).cache = cache)
    ∧ (cacheLookup ((fetch_and_cache_keys wf cache o).2) kid = none →
        (validate_jwt t cache o wf cfIssuer aud now).result = .error ())
    ∧ (∀ key, cacheLookup ((fetch_and_cache_keys wf cache o).2) kid = some key →
        validate_jwt t cache o wf cfIssuer aud now =
          ⟨validate_with_key t key cfIssuer aud now,
            (fetch_and_cache_keys wf cache o).2, 1⟩) := by
  have hm := validate_jwt_miss t cache o wf cfIssuer aud now kid hkid hmiss
  rcases hj : fetch_jwks o with e | ks
  · cases e
    have hfc : fetch_and_cache_keys wf cache o = (.error (), cache) := by
      unfold fetch_and_cache_keys
      rw [hj]
    rw [hfc] at hm
    refine ⟨?_, fun _ => ⟨?_, ?_⟩, fun _ => ?_, fun key hk => ?_⟩
    · rw [hm]
    · rw [hm]
    · rw [hm]
    · rw [hm]
    · exfalso
      have hk' : cacheLookup cache kid = some key := by
        rw [hfc] at hk
        exact hk
      rw [hmiss] at hk'
      cases hk'
  · have hfc : fetch_and_cache_keys wf cache o = (.ok (), buildCache wf ks) := by
      unfold fetch_and_cache_keys
      rw [hj]
    rw [hfc] at hm
    rcases hk : cacheLookup (buildCache wf ks) kid with _ | key
    · simp only [hk] at hm
      refine ⟨?_, fun hje => ?_, fun _ => ?_, fun key' hk' => ?_⟩
      · rw [hm]
      · simp at hje
      · rw [hm]
      · exfalso
        have hk2 : cacheLookup (buildCache wf ks) kid = some key' := by
          rw [hfc] at hk'
          exact hk'
        rw [hk] at hk2
        cases hk2
    · simp only [hk] at hm
      refine ⟨?_, fun hje => ?_, fun h3 => ?_, fun key' hk' => ?_⟩
      · rw [hm]
      · simp at hje
      · exfalso
        have h3' : cacheLookup (buildCache wf ks) kid = none := by
          rw [hfc] at h3
          exact h3
        rw [hk] at h3'
        cases h3'
      · have hk2 : cacheLookup (buildCache wf ks) kid = some key' := by
          rw [hfc] at hk'
          exact hk'
        rw [hk] at hk2
        injection hk2 with hkey'
        subst hkey'
        rw [hm, hfc]

/-- Witness for C4: an unknown kid with a failing on-demand fetch performs
exactly one refresh. -/
theorem unknown_kid_single_refresh_witness :
    (validate_jwt ⟨⟨Alg.RS256, some "kidX"⟩, ⟨5, "iss", .str "aud", none⟩,
        ⟨Alg.RS256, "n", "e", ⟨5, "iss", .str "aud", none⟩⟩⟩
      [] .netErr (fun _ _ => true) "iss" "aud" 0).refreshes = 1 :=
  (unknown_kid_single_refresh (fun _ _ => true) [] .netErr "iss" "aud" 0
    ⟨⟨Alg.RS256, some "kidX"⟩, ⟨5, "iss", .str "aud", none⟩,
      ⟨Alg.RS256, "n", "e", ⟨5, "iss", .str "aud", none⟩⟩⟩ "kidX" rfl rfl).1

lemma decode_error_of_empty_aud (t : Token) (key : RsaKey)
    (cfIssuer aud : String) (now : Nat) (h : t.payload.aud = .list []) :
    ∀ c, decode t key cfIssuer aud now ≠ .ok c := by
  intro c hc
  rw [decode_ok_iff] at hc
  have hov := hc.2.2.2.2.1
  rw [h] at hov
  simp [audOverlap] at hov

/-- C10: a token whose audience claim is an empty list can never be
accepted: the audience deserializer fails on the empty array and
`validate_jwt` rejects the token, whatever the cache, fetch outcome, issuer,
expected audience, or time. -/
theorem empty_audience_rejected (wf : String → String → Bool) (cache : Cache)
    (o : HttpOutcome) (cfIssuer aud : String) (now : Nat) (t : Token)
    (h : t.payload.aud = .list []) :
    deserialize_audience t.payload.aud = .error "audience array is empty"
    ∧ (validate_jwt t cache o wf cfIssuer aud now).result = .error () := by
  have herr : ∀ key, validate_with_key t key cfIssuer aud now = .error () := by
    intro key
    apply validate_with_key_error
    rintro c ⟨hdec, _, _⟩
    exact decode_error_of_empty_aud t key cfIssuer aud now h c hdec
  constructor
  · rw [h]
    rfl
  · rcases hkd : t.header.kid with _ | kid
    · unfold validate_jwt
      rw [hkd]
    · rcases hck : cacheLookup cache kid with _ | key
      · have hm := validate_jwt_miss t cache o wf cfIssuer aud now kid hkd hck
        rcases hfc : fetch_and_cache_keys wf cache o with ⟨res, c'⟩
        cases res with
        | error e =>
          rw [hfc] at hm
          rw [hm]
        | ok u =>
          rw [hfc] at hm
          rcases hck' : cacheLookup c' kid with _ | key
          · simp only [hck'] at hm
            rw [hm]
          · simp only [hck'] at hm
            rw [hm]
            exact herr key
      · rw [validate_jwt_hit t cache o wf cfIssuer aud now kid key hkd hck]
        exact herr key

/-- Witness for C10 at a concrete empty-audience token. -/
theorem empty_audience_rejected_witness :
    deserialize_audience (Payload.aud ⟨5, "iss", .list [], none⟩) =
        .error "audience array is empty"
    ∧ (validate_jwt ⟨⟨Alg.RS256, some "kid1"⟩, ⟨5, "iss", .list [], none⟩,
          ⟨Alg.RS256, "n1", "e1", ⟨5, "iss", .list [], none⟩⟩⟩
        [("kid1", ⟨"n1", "e1"⟩)] .netErr (fun _ _ => true) "iss" "aud" 0).result
        = .error () :=
  empty_audience_rejected (fun _ _ => true) [("kid1", ⟨"n1", "e1"⟩)] .netErr
    "iss" "aud" 0
    ⟨⟨Alg.RS256, some "kid1"⟩, ⟨5, "iss", .list [], none⟩,
      ⟨Alg.RS256, "n1", "e1", ⟨5, "iss", .list [], none⟩⟩⟩ rfl

/-- C5: for a token whose audience claim is a list, only the first element
matters: with all other checks passing, `validate_jwt` accepts exactly when
the expected audience equals the first element, and rejects when it equals
any other value (in particular a later list element). -/
theorem audience_first_element
    (wf : String → String → Bool) (cache : Cache) (o : HttpOutcome)
    (cfIssuer : String) (now : Nat) (kid : String) (key : RsaKey)
    (exp : Nat) (iss : String) (email : Option String)
    (first : String) (rest : List String) (expected : String)
    (hkey : cacheLookup cache kid = some key) (hexp : now ≤ exp)
    (hiss : iss = cfIssuer) :
    (expected = first →
      (validate_jwt ⟨⟨Alg.RS256, some kid⟩, ⟨exp, iss, .list (first :: rest), email⟩,
          ⟨Alg.RS256, key.n, key.e, ⟨exp, iss, .list (first :: rest), email⟩⟩⟩
        cache o wf cfIssuer expected now).result = .ok ⟨exp, iss, first, email⟩)
    ∧ (expected ≠ first →
      (validate_jwt ⟨⟨Alg.RS256, some kid⟩, ⟨exp, iss, .list (first :: rest), email⟩,
          ⟨Alg.RS256, key.n, key.e, ⟨exp, iss, .list (first :: rest), email⟩⟩⟩
        cache o wf cfIssuer expected now).result = .error ()) := by
  constructor
  · intro he
    subst he
    rw [validate_jwt_hit _ cache o wf cfIssuer expected now kid key rfl hkey]
    exact validate_with_key_accept ⟨exp, iss, .list (expected :: rest), email⟩
      key cfIssuer expected now (some kid) hexp hiss rfl
  · intro hne
    rw [validate_jwt_hit _ cache o wf cfIssuer expected now kid key rfl hkey]
    apply validate_with_key_error
    rintro c ⟨hdec, hi, ha⟩
    rw [decode_ok_iff] at hdec
    have hd := hdec.2.2.2.2.2
    rw [deserializeClaims_ok_iff] at hd
    have h1 := hd.1
    simp [deserialize_audience] at h1
    rw [ha] at h1
    exact hne h1.symm

/-- Witness for C5: audience list `["svc-a", "svc-b"]` is accepted for
expected audience `svc-a` and rejected for expected audience `svc-b`. -/
theorem audience_first_element_witness :
    (validate_jwt ⟨⟨Alg.RS256, some "kid1"⟩, ⟨10, "iss", .list ["svc-a", "svc-b"], none⟩,
        ⟨Alg.RS256, "n1", "e1", ⟨10, "iss", .list ["svc-a", "svc-b"], none⟩⟩⟩
      [("kid1", ⟨"n1", "e1"⟩)] .netErr (fun _ _ => true) "iss" "svc-a" 5).result
        = .ok ⟨10, "iss", "svc-a", none⟩
    ∧ (validate_jwt ⟨⟨Alg.RS256, some "kid1"⟩, ⟨10, "iss", .list ["svc-a", "svc-b"], none⟩,
        ⟨Alg.RS256, "n1", "e1", ⟨10, "iss", .list ["svc-a", "svc-b"], none⟩⟩⟩
      [("kid1", ⟨"n1", "e1"⟩)] .netErr (fun _ _ => true) "iss" "svc-b" 5).result
        = .error () :=
  ⟨(audience_first_element (fun _ _ => true) [("kid1", ⟨"n1", "e1"⟩)] .netErr
      "iss" 5 "kid1" ⟨"n1", "e1"⟩ 10 "iss" none "svc-a" ["svc-b"] "svc-a"
      rfl (by decide) rfl).1 rfl,
   (audience_first_element (fun _ _ => true) [("kid1", ⟨"n1", "e1"⟩)] .netErr
      "iss" 5 "kid1" ⟨"n1", "e1"⟩ 10 "iss" none "svc-a" ["svc-b"] "svc-b"
      rfl (by decide) rfl).2 (by decide)⟩

/-! ## Claims about the gateway and configuration -/

/-- C7: a request to `/auth` with no audience source (neither the
`x-expected-audience` header nor the `aud` query parameter) or with no token
source (neither the `cf-authorization` header nor the `CF_Authorization`
cookie) yields 401 for every possible validator — the validator is never
consulted and no key lookup, refresh, or cryptographic work can influence
the response. -/
theorem auth_missing_inputs_rejected (v : String → String → Bool)
    (req : HttpRequest)
    (h : (headerGet req.headers "x-expected-audience" = none ∧ req.queryAud = none)
         ∨ extract_jwt req = none) :
    auth_handler v req = create_response 401 := by
  rcases h with ⟨h1, h2⟩ | h
  · simp [auth_handler, h1, h2]
  · rcases hh : headerGet req.headers "x-expected-audience" with _ | s
    · rcases hq : req.queryAud with _ | q
      · simp [auth_handler, hh, hq]
      · simp [auth_handler, hh, hq, h]
    · simp [auth_handler, hh, h]

/-- Witness for C7: the empty request is rejected with 401. -/
theorem auth_missing_inputs_rejected_witness :
    auth_handler (fun _ _ => true) ⟨[], none⟩ = create_response 401 :=
  auth_missing_inputs_rejected (fun _ _ => true) ⟨[], none⟩ (Or.inl ⟨rfl, rfl⟩)

lemma auth_handler_dichotomy (v : String → String → Bool) (req : HttpRequest) :
    auth_handler v req = create_response 204
      ∨ auth_handler v req = create_response 401 := by
  rcases hh : headerGet req.headers "x-expected-audience" with _ | s
  · rcases hq : req.queryAud with _ | q
    · right
      simp [auth_handler, hh, hq]
    · rcases hj : extract_jwt req with _ | jwt
      · right
        simp [auth_handler, hh, hq, hj]
      · by_cases hv : v jwt q = true
        · left
          simp [auth_handler, hh, hq, hj, hv]
        · right
          simp [auth_handler, hh, hq, hj, hv]
  · rcases hj : extract_jwt req with _ | jwt
    · right
      simp [auth_handler, hh, hj]
    · by_cases hv : v jwt s = true
      · left
        simp [auth_handler, hh, hj, hv]
      · right
        simp [auth_handler, hh, hj, hv]

/-- C8: every `/auth` outcome is either the fixed 204 response or the fixed
401 response, so any two rejections are byte-identical whatever their cause;
and every response of every endpoint carries the connection-reuse,
keep-alive, and cache-disabling headers. -/
theorem uniform_boundary_responses :
    (∀ (v : String → String → Bool) (req : HttpRequest),
        auth_handler v req ≠ create_response 204 →
        auth_handler v req = create_response 401)
    ∧ (∀ (v₁ v₂ : String → String → Bool) (req₁ req₂ : HttpRequest),
        auth_handler v₁ req₁ ≠ create_response 204 →
        auth_handler v₂ req₂ ≠ create_response 204 →
        auth_handler v₁ req₁ = auth_handler v₂ req₂)
    ∧ (∀ status : Nat, (create_response status).2 =
        [("connection", "keep-alive"),
         ("keep-alive", "timeout=120, max=10000"),
         ("cache-control", "no-cache, no-store, must-revalidate"),
         ("pragma", "no-cache"), ("expires", "0")])
    ∧ health_handler = create_response 200
    ∧ (∀ (wf : String → String → Bool) (cache : Cache) (o : HttpOutcome),
        (refresh_keys_handler wf cache o).1 = create_response 200
        ∨ (refresh_keys_handler wf cache o).1 = create_response 500) := by
  refine ⟨?_, ?_, fun _ => rfl, rfl, ?_⟩
  · intro v req hne
    rcases auth_handler_dichotomy v req with h | h
    · exact absurd h hne
    · exact h
  · intro v₁ v₂ req₁ req₂ h1 h2
    rcases auth_handler_dichotomy v₁ req₁ with h | h
    · exact absurd h h1
    · rcases auth_handler_dichotomy v₂ req₂ with h' | h'
      · exact absurd h' h2
      · rw [h, h']
  · intro wf cache o
    unfold refresh_keys_handler
    rcases hfc : fetch_and_cache_keys wf cache o with ⟨res, c'⟩
    cases res with
    | error e =>
      right
      rfl
    | ok u =>
      left
      rfl

/-- C9: for every team name `t`, the trusted issuer and the JWKS URL are
derived by the fixed templates, with `acme` yielding the documented example
values; and a missing team name makes configuration loading fail (which
`main` turns into a startup abort). -/
theorem config_templates :
    (∀ t : String, AppConfig.from_env (some t) =
        .ok ⟨"https://" ++ t ++ ".cloudflareaccess.com",
             "https://" ++ t ++ ".cloudflareaccess.com/cdn-cgi/access/certs"⟩)
    ∧ AppConfig.from_env (some "acme") =
        .ok ⟨"https://acme.cloudflareaccess.com",
             "https://acme.cloudflareaccess.com/cdn-cgi/access/certs"⟩
    ∧ (∃ msg, AppConfig.from_env none = .error msg) := by
  refine ⟨fun t => rfl, ?_, ⟨_, rfl⟩⟩
  rfl
